import Mathlib

/-!
Shallow embedding of the round-based pari-mutuel betting engine
(bot/services/database.py, bot/services/game_manager.py, bot/config.py).

Monetary amounts are modelled as exact rationals.  The asyncpg calls are
modelled as pure state transitions on an explicit `DBState`; each Python
`async with conn.transaction()` block becomes one Lean function applying
all of its statement effects.  SQL row lookups (`fetchrow`) become
structural recursions over the table lists.  Randomness (`random.random`,
`random.choice`, `random.uniform`) is modelled by explicit parameters, and
the wall clock by an explicit `now : Rat` parameter.
-/

/-- A bet side, bot/config.py `GameConstants.BET_TYPES`. -/
inductive Side
  | PUMP
  | DUMP
deriving DecidableEq

/-- Round status, bot/config.py `GameConstants.ROUND_STATUSES`. -/
inductive RoundStatus
  | waiting
  | betting
  | revealing
  | completed
deriving DecidableEq

/-- A row of the `users` table (columns read or written by the service). -/
structure User where
  id : Nat
  telegramId : Nat
  username : Option String
  firstName : Option String
  balance : Rat
  totalWagered : Rat
  totalWon : Rat
  gamesPlayed : Nat
  wins : Nat
  losses : Nat
deriving DecidableEq

/-- A row of the `rounds` table. -/
structure Round where
  id : Nat
  roundNumber : Nat
  status : RoundStatus
  bettingEndsAt : Rat
  totalPot : Rat
  pumpPot : Rat
  dumpPot : Rat
  participantsCount : Nat
  result : Option Side
  houseProfit : Rat
  endedAt : Option Rat
deriving DecidableEq

/-- A row of the `bets` table.  `is_winner` defaults FALSE, `payout` NULL. -/
structure Bet where
  userId : Nat
  roundId : Nat
  betType : Side
  amount : Rat
  isWinner : Bool
  payout : Option Rat
deriving DecidableEq

/-- The three tables the service touches. -/
structure DBState where
  users : List User
  rounds : List Round
  bets : List Bet
deriving DecidableEq

/-- Game settings from bot/config.py `Config` (env defaults used below). -/
structure Config where
  houseEdge : Rat
  minBet : Rat
  maxBet : Rat
deriving DecidableEq

/-- The env-default configuration: HOUSE_EDGE 0.05, MIN_BET 0.01, MAX_BET 10.0. -/
def defaultConfig : Config := { houseEdge := 0.05, minBet := 0.01, maxBet := 10 }

/-- `SELECT * FROM users WHERE telegram_id = $1` (fetchrow: first matching row). -/
def findUser (users : List User) (tid : Nat) : Option User :=
  match users with
  | [] => none
  | u :: rest => if u.telegramId = tid then some u else findUser rest tid

/-- The serial id handed to a newly inserted user row. -/
def nextUserId (users : List User) : Nat :=
  users.foldr (fun u m => max u.id m) 0 + 1

/-- The username/first_name refresh applied to the stored rows of an existing
user (database.py lines 46-49). -/
def applyNameUpdate (un fn : Option String) (tid : Nat) (u : User) : User :=
  if u.telegramId = tid then { u with username := un, firstName := fn } else u

/-- `DatabaseService.get_or_create_user`: returns the existing row (refreshing
its username/first_name columns when they changed) or inserts a new row with
a starting balance of 1.0.  Returns the fetched row and the new state. -/
def get_or_create_user (s : DBState) (tid : Nat) (un fn : Option String) :
    User × DBState :=
  match findUser s.users tid with
  | some u =>
      (u, if un ≠ u.username ∨ fn ≠ u.firstName then
            { s with users := s.users.map (applyNameUpdate un fn tid) }
          else s)
  | none =>
      let newU : User :=
        { id := nextUserId s.users, telegramId := tid, username := un,
          firstName := fn, balance := 1, totalWagered := 0, totalWon := 0,
          gamesPlayed := 0, wins := 0, losses := 0 }
      (newU, { s with users := s.users ++ [newU] })

/-- Whether a round row matches `status IN ('betting', 'revealing')`. -/
def isActive (r : Round) : Prop :=
  r.status = RoundStatus.betting ∨ r.status = RoundStatus.revealing

instance (r : Round) : Decidable (isActive r) := by
  unfold isActive
  infer_instance

/-- `SELECT * FROM rounds WHERE status IN ('betting','revealing')
ORDER BY id DESC LIMIT 1`: the active row with the largest id. -/
def latestActive (rounds : List Round) (acc : Option Round) : Option Round :=
  match rounds with
  | [] => acc
  | r :: rest =>
      if isActive r then
        match acc with
        | none => latestActive rest (some r)
        | some a => latestActive rest (if a.id < r.id then some r else some a)
      else latestActive rest acc

/-- `DatabaseService.get_current_round`. -/
def get_current_round (s : DBState) : Option Round :=
  latestActive s.rounds none

/-- `SELECT * FROM bets WHERE user_id = $1 AND round_id = $2` (fetchrow). -/
def findBet (bets : List Bet) (uid rid : Nat) : Option Bet :=
  match bets with
  | [] => none
  | b :: rest =>
      if b.userId = uid ∧ b.roundId = rid then some b else findBet rest uid rid

/-- `DatabaseService.get_user_round_bet`. -/
def get_user_round_bet (s : DBState) (uid rid : Nat) : Option Bet :=
  findBet s.bets uid rid

/-- `SELECT ... FROM rounds WHERE id = $1` (fetchrow). -/
def findRound (rounds : List Round) (rid : Nat) : Option Round :=
  match rounds with
  | [] => none
  | r :: rest => if r.id = rid then some r else findRound rest rid

/-- Map an update over the user rows matching a serial id. -/
def updateUserById (s : DBState) (uid : Nat) (f : User → User) : DBState :=
  { s with users := s.users.map (fun u => if u.id = uid then f u else u) }

/-- Map an update over the round rows matching a serial id. -/
def updateRoundById (s : DBState) (rid : Nat) (f : Round → Round) : DBState :=
  { s with rounds := s.rounds.map (fun r => if r.id = rid then f r else r) }

/-- The pot/participant increment `place_bet` applies to the round row:
`bet_type == 'PUMP'` bumps the pump pot, anything else the dump pot. -/
def potUpdate (betType : Side) (amount : Rat) (r : Round) : Round :=
  match betType with
  | Side.PUMP =>
      { r with totalPot := r.totalPot + amount, pumpPot := r.pumpPot + amount,
               participantsCount := r.participantsCount + 1 }
  | Side.DUMP =>
      { r with totalPot := r.totalPot + amount, dumpPot := r.dumpPot + amount,
               participantsCount := r.participantsCount + 1 }

/-- `DatabaseService.place_bet`: one transaction inserting the bet row,
debiting the user and bumping the round pots.  (The Python method performs
no checks of its own; validation lives in `GameManager.can_place_bet`.) -/
def db_place_bet (s : DBState) (uid rid : Nat) (betType : Side) (amount : Rat) :
    DBState :=
  let s1 : DBState :=
    { s with bets := s.bets ++
        [{ userId := uid, roundId := rid, betType := betType, amount := amount,
           isWinner := false, payout := none }] }
  let s2 := updateUserById s1 uid
    (fun u => { u with balance := u.balance - amount,
                       totalWagered := u.totalWagered + amount })
  updateRoundById s2 rid (potUpdate betType amount)

/-- In-memory state of `GameManager` (current round id and counter). -/
structure GMState where
  db : DBState
  currentRound : Option Nat
  roundCounter : Nat
deriving DecidableEq

/-- The distinct rejection messages `can_place_bet` can return. -/
inductive BetRejection
  | NoActiveRound
  | BettingClosed
  | BelowMin
  | AboveMax
  | InsufficientBalance
  | AlreadyBet
deriving DecidableEq

/-- `GameManager.can_place_bet`.  The `now` parameter records the instant of
the call; the source never reads the clock on this path (in particular it
never compares `now` with the round's `betting_ends_at`). -/
def can_place_bet (cfg : Config) (gm : GMState) (tid : Nat) (amount now : Rat) :
    Option BetRejection × GMState :=
  match gm.currentRound with
  | none => (some BetRejection.NoActiveRound, gm)
  | some rid =>
    match get_current_round gm.db with
    | none => (some BetRejection.BettingClosed, gm)
    | some cr =>
      if cr.status ≠ RoundStatus.betting then (some BetRejection.BettingClosed, gm)
      else if amount < cfg.minBet then (some BetRejection.BelowMin, gm)
      else if amount > cfg.maxBet then (some BetRejection.AboveMax, gm)
      else
        let res := get_or_create_user gm.db tid none none
        let gm' : GMState := { gm with db := res.2 }
        if res.1.balance < amount then (some BetRejection.InsufficientBalance, gm')
        else if (get_user_round_bet res.2 res.1.id rid).isSome then
          (some BetRejection.AlreadyBet, gm')
        else (none, gm')

/-- `GameManager.place_bet`: validate via `can_place_bet`, re-fetch the user,
then run the `DatabaseService.place_bet` transaction. -/
def gm_place_bet (cfg : Config) (gm : GMState) (tid : Nat) (betType : Side)
    (amount now : Rat) : Except BetRejection Unit × GMState :=
  let c := can_place_bet cfg gm tid amount now
  match c.1 with
  | some rej => (Except.error rej, c.2)
  | none =>
    let res := get_or_create_user c.2.db tid none none
    match c.2.currentRound with
    | none => (Except.error BetRejection.NoActiveRound, { c.2 with db := res.2 })
    | some rid =>
      (Except.ok (), { c.2 with db := db_place_bet res.2 res.1.id rid betType amount })

/-- `winners_pool` as computed in `distribute_winnings`:
`total_pot - total_pot * HOUSE_EDGE`. -/
def winnersPool (cfg : Config) (totalPot : Rat) : Rat :=
  totalPot - totalPot * cfg.houseEdge

/-- The payout multiplier `winners_pool / winning_pot`. -/
def payoutMultiplier (cfg : Config) (totalPot winningPot : Rat) : Rat :=
  winnersPool cfg totalPot / winningPot

/-- The winning-bet update of `distribute_winnings`:
`UPDATE bets SET is_winner = TRUE, payout = amount * mult
 WHERE round_id = $2 AND bet_type = $3`. -/
def markWinningBet (rid : Nat) (result : Side) (mult : Rat) (b : Bet) : Bet :=
  if b.roundId = rid ∧ b.betType = result then
    { b with isWinner := true, payout := some (b.amount * mult) }
  else b

/-- The bet row joined to a user by the balance-credit UPDATE of
`distribute_winnings` (`users.id = b.user_id AND b.round_id = $1 AND
b.bet_type = $2`); the bets table carries at most one such row per user. -/
def findWinBet (bets : List Bet) (uid rid : Nat) (result : Side) : Option Bet :=
  match bets with
  | [] => none
  | b :: rest =>
      if b.userId = uid ∧ b.roundId = rid ∧ b.betType = result then some b
      else findWinBet rest uid rid result

/-- Number of bet rows hit by the winning-bet UPDATE (the `UPDATE n` count
the method parses back out of the command tag). -/
def countRoundSideBets (bets : List Bet) (rid : Nat) (result : Side) : Nat :=
  match bets with
  | [] => 0
  | b :: rest =>
      (if b.roundId = rid ∧ b.betType = result then 1 else 0) +
        countRoundSideBets rest rid result

/-- `DatabaseService.distribute_winnings`: one transaction reading the round
pots, returning early with zero winners when the round is missing or the
winning pot is zero, otherwise marking the winning bets and crediting each
winning bettor's balance with the joined (already updated) bet's payout.
Returns the number of updated bet rows and the new state. -/
def distribute_winnings (cfg : Config) (s : DBState) (rid : Nat)
    (result : Side) : Nat × DBState :=
  match findRound s.rounds rid with
  | none => (0, s)
  | some rd =>
    let winningPot : Rat := if result = Side.PUMP then rd.pumpPot else rd.dumpPot
    if winningPot = 0 then (0, s)
    else
      let mult := payoutMultiplier cfg rd.totalPot winningPot
      let bets' := s.bets.map (markWinningBet rid result mult)
      let users' := s.users.map (fun u =>
        match findWinBet bets' u.id rid result with
        | some b => { u with balance := u.balance + b.payout.getD 0 }
        | none => u)
      (countRoundSideBets s.bets rid result, { s with bets := bets', users := users' })

/-- The participant-statistics update of `complete_round` (join of `users`
with the round's `bets` on `users.id = b.user_id AND b.round_id = $1`). -/
def applyStats (bets : List Bet) (rid : Nat) (u : User) : User :=
  match findBet bets u.id rid with
  | some b =>
      { u with gamesPlayed := u.gamesPlayed + 1,
               wins := u.wins + (if b.isWinner then 1 else 0),
               losses := u.losses + (if b.isWinner then 0 else 1),
               totalWon := u.totalWon + b.payout.getD 0 }
  | none => u

/-- `DatabaseService.complete_round`: one transaction setting the round to
`completed` with its result, house profit and end time, and bumping the
game statistics of every participant of the round. -/
def complete_round (s : DBState) (rid : Nat) (result : Side)
    (houseProfit now : Rat) : DBState :=
  let rounds' := s.rounds.map (fun r =>
    if r.id = rid then
      { r with status := RoundStatus.completed, result := some result,
               houseProfit := houseProfit, endedAt := some now }
    else r)
  { s with rounds := rounds', users := s.users.map (applyStats s.bets rid) }

/-- Settlement phase of `GameManager.run_round` (lines 106-114): house profit
is `round_stats['total_pot'] * HOUSE_EDGE`, winnings are distributed, then
the round is completed.  (The pots cannot change between the betting-close
snapshot and this point, so the total pot is read from the round row.) -/
def settle_round (cfg : Config) (s : DBState) (rid : Nat) (result : Side)
    (now : Rat) : Nat × DBState :=
  let totalPot : Rat :=
    match findRound s.rounds rid with
    | some r => r.totalPot
    | none => 0
  let houseProfit := totalPot * cfg.houseEdge
  let d := distribute_winnings cfg s rid result
  (d.1, complete_round d.2 rid result houseProfit now)

/-! ### The round loop's counter (GameManager.run_round, lines 70-79)

`run_round` reads `round_counter`, increments it, and only then attempts to
persist the round (`db.create_round`, which can raise).  A raise is caught
by `start_game_loop`, which sleeps and calls `run_round` again.  `persistOk`
records whether `create_round` succeeded on this attempt. -/

structure LoopState where
  roundCounter : Nat
  persistedRounds : List Nat
deriving DecidableEq

/-- One `run_round` attempt, up to and including `db.create_round`. -/
def run_round_attempt (persistOk : Bool) (s : LoopState) : LoopState :=
  let rn := s.roundCounter
  let s' : LoopState := { s with roundCounter := s.roundCounter + 1 }
  if persistOk then { s' with persistedRounds := s'.persistedRounds ++ [rn] }
  else s'

/-- The loop of `start_game_loop`, one attempt per trace entry. -/
def runAttempts (s : LoopState) (trace : List Bool) : LoopState :=
  trace.foldl (fun st ok => run_round_attempt ok st) s

/-! ### Broadcast hub (GameManager.subscribe / broadcast_update)

A subscriber callback either succeeds or raises; `deliver` returns
`Except String Unit` accordingly.  `broadcast_update` wraps each call in
try/except, logging the error, and is itself total (it never raises). -/

structure Subscriber where
  id : Nat
  deliver : String → Except String Unit

/-- Subscriber list of the hub. -/
structure Hub where
  subscribers : List Subscriber

/-- `GameManager.subscribe`. -/
def subscribe (h : Hub) (s : Subscriber) : Hub :=
  { h with subscribers := h.subscribers ++ [s] }

/-- The for-loop body of `broadcast_update`: call each subscriber in order,
catching and logging any raise.  Returns (ids delivered to, ids whose
delivery raised and was logged). -/
def deliverAll (subs : List Subscriber) (event : String) : List Nat × List Nat :=
  match subs with
  | [] => ([], [])
  | s :: rest =>
    let t := deliverAll rest event
    match s.deliver event with
    | Except.ok _ => (s.id :: t.1, t.2)
    | Except.error _ => (t.1, s.id :: t.2)

/-- `GameManager.broadcast_update`: total function (every exception is caught
inside the loop); the subscriber list is left exactly as it was. -/
def broadcast_update (h : Hub) (event : String) : (List Nat × List Nat) × Hub :=
  (deliverAll h.subscribers event, h)

/-! ### Outcome determiner (GameManager.determine_result)

`random.choice(['PUMP','DUMP'])` is the fair coin `coin`,
`random.uniform(-0.05, 0.05)` the `jitter` sample, and `random.random()` the
`u` sample. -/

/-- `pump_payout = dump_pot * (1 - HOUSE_EDGE) if dump_pot > 0 else 0`. -/
def hypotheticalPumpPayout (cfg : Config) (dumpPot : Rat) : Rat :=
  if 0 < dumpPot then dumpPot * (1 - cfg.houseEdge) else 0

/-- `dump_payout = pump_pot * (1 - HOUSE_EDGE) if pump_pot > 0 else 0`. -/
def hypotheticalDumpPayout (cfg : Config) (pumpPot : Rat) : Rat :=
  if 0 < pumpPot then pumpPot * (1 - cfg.houseEdge) else 0

/-- The biased base PUMP probability (0.52 / 0.48 / 0.5). -/
def basePumpProbability (cfg : Config) (pumpPot dumpPot : Rat) : Rat :=
  let pp := hypotheticalPumpPayout cfg dumpPot
  let dp := hypotheticalDumpPayout cfg pumpPot
  if pp < dp then 0.52
  else if dp < pp then 0.48
  else 0.5

/-- The jittered and clamped PUMP probability:
`max(0.4, min(0.6, base + jitter))`. -/
def clampedPumpProbability (cfg : Config) (pumpPot dumpPot jitter : Rat) : Rat :=
  max 0.4 (min 0.6 (basePumpProbability cfg pumpPot dumpPot + jitter))

/-- `GameManager.determine_result` on the betting-close snapshot
`(total_pot, pump_pot, dump_pot)`. -/
def determine_result (cfg : Config) (totalPot pumpPot dumpPot : Rat)
    (coin : Bool) (jitter u : Rat) : Side :=
  if totalPot = 0 then (if coin then Side.PUMP else Side.DUMP)
  else if u < clampedPumpProbability cfg pumpPot dumpPot jitter then Side.PUMP
  else Side.DUMP

/-! ### Pot/bet bookkeeping predicates used to state the spec invariants -/

/-- Sum of the amounts of the bets of a round. -/
def betSum (bets : List Bet) (rid : Nat) : Rat :=
  match bets with
  | [] => 0
  | b :: rest => (if b.roundId = rid then b.amount else 0) + betSum rest rid

/-- Sum of the amounts of one side's bets of a round. -/
def sideSum (bets : List Bet) (rid : Nat) (side : Side) : Rat :=
  match bets with
  | [] => 0
  | b :: rest =>
      (if b.roundId = rid ∧ b.betType = side then b.amount else 0) +
        sideSum rest rid side

/-- Number of bet rows of one (user, round) pair. -/
def pairCount (bets : List Bet) (uid rid : Nat) : Nat :=
  match bets with
  | [] => 0
  | b :: rest =>
      (if b.userId = uid ∧ b.roundId = rid then 1 else 0) + pairCount rest uid rid

/-- The financial invariants of the rounds/bets tables: distinct round ids,
every round's pots equal to the sums of its committed bets, and at most one
bet row per (user, round) pair. -/
def tablesInv (rounds : List Round) (bets : List Bet) : Prop :=
  (rounds.map Round.id).Nodup ∧
  (∀ r ∈ rounds, r.totalPot = betSum bets r.id ∧
      r.pumpPot = sideSum bets r.id Side.PUMP ∧
      r.dumpPot = sideSum bets r.id Side.DUMP) ∧
  (∀ b ∈ bets, pairCount bets b.userId b.roundId ≤ 1)

/-- The invariant on a database state. -/
def DBInv (s : DBState) : Prop :=
  tablesInv s.rounds s.bets

/-- A sequence of `GameManager.place_bet` calls applied in order
(request = (telegram id, side, amount)). -/
def applyBetRequests (cfg : Config) (gm : GMState)
    (reqs : List (Nat × Side × Rat)) (now : Rat) : GMState :=
  reqs.foldl (fun g req => (gm_place_bet cfg g req.1 req.2.1 req.2.2 now).2) gm

/-- Whether a subscriber's callback succeeds on an event. -/
def deliveryOk (s : Subscriber) (event : String) : Bool :=
  match s.deliver event with
  | Except.ok _ => true
  | Except.error _ => false

/-! ### Concrete fixtures used by witnesses and counterexamples -/

/-- A user with one SOL-scale balance and no history. -/
def mkUser (uid tid : Nat) (bal : Rat) : User :=
  { id := uid, telegramId := tid, username := none, firstName := none,
    balance := bal, totalWagered := 0, totalWon := 0, gamesPlayed := 0,
    wins := 0, losses := 0 }

/-- A round row with the given status, deadline and pots. -/
def mkRound (rid : Nat) (st : RoundStatus) (deadline total pump dump : Rat)
    (pc : Nat) : Round :=
  { id := rid, roundNumber := rid, status := st, bettingEndsAt := deadline,
    totalPot := total, pumpPot := pump, dumpPot := dump,
    participantsCount := pc, result := none, houseProfit := 0, endedAt := none }

/-- A freshly inserted bet row. -/
def mkBet (uid rid : Nat) (side : Side) (amount : Rat) : Bet :=
  { userId := uid, roundId := rid, betType := side, amount := amount,
    isWinner := false, payout := none }

/-- Round 1 in `revealing` with pots (10, 6, 4): two PUMP bettors (amounts
2 and 4) and one DUMP bettor (amount 4), all with balance 5. -/
def roundTripState : DBState :=
  { users := [mkUser 1 101 5, mkUser 2 102 5, mkUser 3 103 5],
    rounds := [mkRound 1 RoundStatus.revealing 10 10 6 4 3],
    bets := [mkBet 1 1 Side.PUMP 2, mkBet 2 1 Side.PUMP 4, mkBet 3 1 Side.DUMP 4] }

/-- A single bettor of `a` on PUMP, pots (a, a, 0), balance `b0`, round 1 in
`revealing`: the state just before settlement. -/
def oneBettorState (b0 a : Rat) : DBState :=
  { users := [mkUser 1 101 b0],
    rounds := [mkRound 1 RoundStatus.revealing 10 a a 0 1],
    bets := [mkBet 1 1 Side.PUMP a] }

/-- Round 1 in `revealing` with pots (5, 0, 5): one DUMP bettor of 5,
nobody on PUMP. -/
def noWinnerState : DBState :=
  { users := [mkUser 1 104 7],
    rounds := [mkRound 1 RoundStatus.revealing 10 5 0 5 1],
    bets := [mkBet 1 1 Side.DUMP 5] }

/-- Betting round whose deadline (10) is already in the past at call time 20,
with a funded user who has not bet yet. -/
def expiredOpenGM : GMState :=
  { db := { users := [mkUser 1 101 5],
            rounds := [mkRound 1 RoundStatus.betting 10 0 0 0 0],
            bets := [] },
    currentRound := some 1, roundCounter := 2 }

/-- Betting round whose deadline (100) is already in the past at call time
200, with a funded user who has not bet yet. -/
def expiredOpenGM2 : GMState :=
  { db := { users := [mkUser 4 777 8],
            rounds := [mkRound 3 RoundStatus.betting 100 0 0 0 0],
            bets := [] },
    currentRound := some 3, roundCounter := 4 }

/-- A hub with one failing and one healthy subscriber. -/
def twoSubHub : Hub :=
  { subscribers :=
      [{ id := 1, deliver := fun _ => Except.error "connection closed" },
       { id := 2, deliver := fun _ => Except.ok () }] }

/-- The loop-counter invariant: persisted round numbers strictly increase and
stay below the in-memory counter. -/
def loopInv (s : LoopState) : Prop :=
  s.persistedRounds.Pairwise (· < ·) ∧ ∀ n ∈ s.persistedRounds, n < s.roundCounter

/-- The financial columns of a user row (everything except identity and the
username/first_name columns). -/
def userEconomy (u : User) : Rat × Rat × Rat × Nat × Nat × Nat :=
  (u.balance, u.totalWagered, u.totalWon, u.gamesPlayed, u.wins, u.losses)

/-! ## Helper lemmas -/

theorem run_round_attempt_counter (ok : Bool) (s : LoopState) :
    (run_round_attempt ok s).roundCounter = s.roundCounter + 1 := by
  unfold run_round_attempt
  cases ok <;> simp

theorem run_round_attempt_inv (ok : Bool) (s : LoopState) (h : loopInv s) :
    loopInv (run_round_attempt ok s) := by
  obtain ⟨hp, hb⟩ := h
  unfold run_round_attempt loopInv
  cases ok
  · simpa using ⟨hp, fun n hn => Nat.lt_succ_of_lt (hb n hn)⟩
  · simp only [Bool.false_eq_true, if_true, ite_true, List.pairwise_append]
    refine ⟨⟨hp, ?_, ?_⟩, ?_⟩
    · simp
    · intro a ha b hbm
      simp only [List.mem_singleton] at hbm
      subst hbm
      exact hb a ha
    · intro n hn
      rcases List.mem_append.mp hn with h1 | h1
      · exact Nat.lt_succ_of_lt (hb n h1)
      · simp only [List.mem_singleton] at h1
        subst h1
        exact Nat.lt_succ_self _

theorem runAttempts_inv (trace : List Bool) (s : LoopState) (h : loopInv s) :
    loopInv (runAttempts s trace) := by
  induction trace generalizing s with
  | nil => simpa [runAttempts] using h
  | cons ok rest ih =>
      have := ih (run_round_attempt ok s) (run_round_attempt_inv ok s h)
      simpa [runAttempts, List.foldl_cons] using this

theorem deliverAll_spec (subs : List Subscriber) (event : String) :
    (deliverAll subs event).1 =
        (subs.filter (fun s => deliveryOk s event)).map Subscriber.id ∧
      (deliverAll subs event).2 =
        (subs.filter (fun s => !deliveryOk s event)).map Subscriber.id := by
  induction subs with
  | nil => simp [deliverAll]
  | cons s rest ih =>
      obtain ⟨ih1, ih2⟩ := ih
      unfold deliverAll deliveryOk
      cases h : s.deliver event with
      | ok v =>
          simp [List.filter_cons, deliveryOk, h, ih1, ih2]
      | error e =>
          simp [List.filter_cons, deliveryOk, h, ih1, ih2]

/-! ## Claim theorems -/

/-- C5 counterexample: starting from round counter 1, a persistence failure
followed by a successful retry persists only round number 2 — the counter
advanced to 2 during the failed attempt, so round number 1 is skipped,
contradicting "retries ... without advancing the round counter, so no round
number is ever skipped". -/
theorem round_counter_advances_on_failure :
    (run_round_attempt false { roundCounter := 1, persistedRounds := [] }).roundCounter = 2 ∧
      (runAttempts { roundCounter := 1, persistedRounds := [] } [false, true]).persistedRounds = [2] ∧
      1 ∉ (runAttempts { roundCounter := 1, persistedRounds := [] } [false, true]).persistedRounds := by
  refine ⟨rfl, ?_, ?_⟩ <;> simp [runAttempts, run_round_attempt]

/-- C5 amended: the engine increments the round counter at the start of every
attempt, before persistence, so a persistence failure skips that round
number; persisted round numbers remain strictly increasing (monotonic) and
below the counter, but they are not gapless. -/
theorem round_numbers_monotonic (s : LoopState) (trace : List Bool)
    (h : loopInv s) :
    (∀ ok, (run_round_attempt ok s).roundCounter = s.roundCounter + 1) ∧
      (runAttempts s trace).persistedRounds.Pairwise (· < ·) ∧
      ∀ n ∈ (runAttempts s trace).persistedRounds,
        n < (runAttempts s trace).roundCounter := by
  refine ⟨fun ok => run_round_attempt_counter ok s, ?_, ?_⟩
  · exact (runAttempts_inv trace s h).1
  · exact (runAttempts_inv trace s h).2

/-- C5 witness: the amended statement applied to the initial loop state and
the failure-then-success trace. -/
theorem round_numbers_monotonic_witness :
    (runAttempts { roundCounter := 1, persistedRounds := [] }
        [false, true]).persistedRounds.Pairwise (· < ·) :=
  (round_numbers_monotonic { roundCounter := 1, persistedRounds := [] }
    [false, true] (by simp [loopInv])).2.1

/-- C6 counterexample: publishing to a hub whose first subscriber raises
delivers to the healthy subscriber and logs the failure, but the failing
subscriber is NOT removed from the subscriber set (the set still has both
members), contradicting "the failing subscriber is removed from the
subscriber set". -/
theorem failed_subscriber_not_removed :
    (broadcast_update twoSubHub "round_started").1.1 = [2] ∧
      (broadcast_update twoSubHub "round_started").1.2 = [1] ∧
      (broadcast_update twoSubHub "round_started").2.subscribers.map Subscriber.id = [1, 2] := by
  refine ⟨?_, ?_, ?_⟩ <;>
    simp [broadcast_update, deliverAll, twoSubHub]

/-- C6 amended: `broadcast_update` delivers to every current subscriber
independently — a raise in one subscriber's callback is caught (and logged)
without stopping delivery to the remaining subscribers, and the call itself
is a total function that never raises to its caller — but the failing
subscriber is left in the subscriber set unchanged, not removed. -/
theorem broadcast_update_isolates_failures (h : Hub) (event : String) :
    (broadcast_update h event).2.subscribers = h.subscribers ∧
      (broadcast_update h event).1.1 =
        (h.subscribers.filter (fun s => deliveryOk s event)).map Subscriber.id ∧
      (broadcast_update h event).1.2 =
        (h.subscribers.filter (fun s => !deliveryOk s event)).map Subscriber.id := by
  refine ⟨rfl, ?_, ?_⟩
  · exact (deliverAll_spec h.subscribers event).1
  · exact (deliverAll_spec h.subscribers event).2

/-- C8: the outcome determiner returns the fair-coin choice when both pots
are zero (total = pump + dump), biases the base PUMP probability to
0.52/0.48/0.5 according to which side owes the smaller payout, and after
adding the jitter clamps the sampled PUMP probability into [0.40, 0.60];
with a nonzero pot the sampled result is PUMP exactly when the uniform
draw falls below the clamped probability. -/
theorem determine_result_spec (cfg : Config) (totalPot pumpPot dumpPot : Rat)
    (coin : Bool) (jitter u : Rat)
    (hj : -0.05 ≤ jitter ∧ jitter ≤ 0.05) :
    (pumpPot = 0 → dumpPot = 0 → totalPot = pumpPot + dumpPot →
      determine_result cfg totalPot pumpPot dumpPot coin jitter u =
        (if coin then Side.PUMP else Side.DUMP)) ∧
    (hypotheticalPumpPayout cfg dumpPot < hypotheticalDumpPayout cfg pumpPot →
      basePumpProbability cfg pumpPot dumpPot = 0.52) ∧
    (hypotheticalDumpPayout cfg pumpPot < hypotheticalPumpPayout cfg dumpPot →
      basePumpProbability cfg pumpPot dumpPot = 0.48) ∧
    (hypotheticalPumpPayout cfg dumpPot = hypotheticalDumpPayout cfg pumpPot →
      basePumpProbability cfg pumpPot dumpPot = 0.5) ∧
    (0.4 ≤ clampedPumpProbability cfg pumpPot dumpPot jitter ∧
      clampedPumpProbability cfg pumpPot dumpPot jitter ≤ 0.6) ∧
    (totalPot ≠ 0 →
      (determine_result cfg totalPot pumpPot dumpPot coin jitter u = Side.PUMP ↔
        u < clampedPumpProbability cfg pumpPot dumpPot jitter)) := by
  refine ⟨?_, ?_, ?_, ?_, ⟨le_max_left _ _, ?_⟩, ?_⟩
  · intro h1 h2 h3
    subst h1; subst h2
    simp only [determine_result]
    rw [if_pos (by simpa using h3)]
  · intro hlt
    unfold basePumpProbability
    rw [if_pos hlt]
  · intro hlt
    unfold basePumpProbability
    rw [if_neg (not_lt_of_gt hlt), if_pos hlt]
  · intro heq
    unfold basePumpProbability
    rw [if_neg (by rw [heq]; exact lt_irrefl _), if_neg (by rw [heq]; exact lt_irrefl _)]
  · exact max_le (by norm_num) (min_le_left _ _)
  · intro hne
    unfold determine_result
    rw [if_neg hne]
    constructor
    · intro hres
      by_contra hlt
      rw [if_neg hlt] at hres
      exact Side.noConfusion hres
    · intro hlt
      rw [if_pos hlt]

/-- C8 witness: the fair-coin branch at zero pots and the clamp bounds at a
sample nonzero-pot input, both from the theorem at concrete inputs. -/
theorem determine_result_spec_witness :
    determine_result defaultConfig 0 0 0 true 0.01 0.5 =
        (if true then Side.PUMP else Side.DUMP) ∧
      0.4 ≤ clampedPumpProbability defaultConfig 6 4 0.01 ∧
      clampedPumpProbability defaultConfig 6 4 0.01 ≤ 0.6 := by
  refine ⟨?_, ?_⟩
  · exact (determine_result_spec defaultConfig 0 0 0 true 0.01 0.5
      (by norm_num)).1 rfl rfl (by norm_num)
  · exact (determine_result_spec defaultConfig 10 6 4 true 0.01 0.5
      (by norm_num)).2.2.2.2.1

/-- C9: settling the (10, 6, 4) round at the default 5% house edge with
result PUMP yields house profit 1/2 recorded on the round, winners pool 19/2,
multiplier 19/12 (≈ 1.5833), and credits the PUMP bettor of amount 2 with a
payout of 19/6 (≈ 3.1667): balance 5 becomes 49/6. -/
theorem settlement_round_trip :
    winnersPool defaultConfig 10 = 19/2 ∧
      payoutMultiplier defaultConfig 10 6 = 19/12 ∧
      (10 : Rat) * defaultConfig.houseEdge = 1/2 ∧
      (settle_round defaultConfig roundTripState 1 Side.PUMP 50).2.bets.map Bet.payout =
        [some (19/6), some (19/3), none] ∧
      (settle_round defaultConfig roundTripState 1 Side.PUMP 50).2.users.map User.balance =
        [5 + 19/6, 5 + 19/3, 5] ∧
      (settle_round defaultConfig roundTripState 1 Side.PUMP 50).2.rounds.map Round.houseProfit =
        [1/2] ∧
      (settle_round defaultConfig roundTripState 1 Side.PUMP 50).1 = 2 := by
  refine ⟨by norm_num [winnersPool, defaultConfig], by
    norm_num [payoutMultiplier, winnersPool, defaultConfig], by
    norm_num [defaultConfig], ?_, ?_, ?_, ?_⟩ <;>
    (simp [settle_round, distribute_winnings, complete_round, findRound,
      payoutMultiplier, winnersPool, markWinningBet, applyStats, findBet,
      findWinBet, countRoundSideBets, roundTripState, mkUser, mkRound, mkBet,
      defaultConfig]
     try norm_num)

theorem userEconomy_applyNameUpdate (un fn : Option String) (tid : Nat) (u : User) :
    userEconomy (applyNameUpdate un fn tid u) = userEconomy u := by
  unfold applyNameUpdate
  split <;> rfl

/-- C10: `get_or_create_user` creates a missing user with starting balance
exactly 1.0 (appending the new row), and for an existing user key returns
the stored row without modifying any user's balance or game statistics
(only the username/first_name columns may be refreshed). -/
theorem get_or_create_user_spec (s : DBState) (tid : Nat) (un fn : Option String) :
    (findUser s.users tid = none →
      (get_or_create_user s tid un fn).1.balance = 1 ∧
        (get_or_create_user s tid un fn).1.telegramId = tid ∧
        (get_or_create_user s tid un fn).2.users =
          s.users ++ [(get_or_create_user s tid un fn).1]) ∧
    (∀ u0, findUser s.users tid = some u0 →
      (get_or_create_user s tid un fn).1 = u0 ∧
        (get_or_create_user s tid un fn).2.users.map userEconomy =
          s.users.map userEconomy) := by
  constructor
  · intro h
    simp [get_or_create_user, h]
  · intro u0 h
    simp only [get_or_create_user, h]
    refine ⟨trivial, ?_⟩
    split
    · simp only [List.map_map]
      exact List.map_congr_left (fun u _ => userEconomy_applyNameUpdate un fn tid u)
    · rfl

/-- C10 witness: a missing key gets balance 1; an existing key's state keeps
every balance and statistic. -/
theorem get_or_create_user_spec_witness :
    (get_or_create_user { users := [], rounds := [], bets := [] } 7 none none).1.balance = 1 ∧
      (get_or_create_user (oneBettorState 10 2) 101 none none).1 = mkUser 1 101 10 ∧
      (get_or_create_user (oneBettorState 10 2) 101 none none).2.users.map userEconomy =
        (oneBettorState 10 2).users.map userEconomy := by
  refine ⟨?_, ?_, ?_⟩
  · exact ((get_or_create_user_spec { users := [], rounds := [], bets := [] } 7
      none none).1 (by simp [findUser])).1
  · exact ((get_or_create_user_spec (oneBettorState 10 2) 101 none none).2
      (mkUser 1 101 10) (by simp [oneBettorState, findUser, mkUser])).1
  · exact ((get_or_create_user_spec (oneBettorState 10 2) 101 none none).2
      (mkUser 1 101 10) (by simp [oneBettorState, findUser, mkUser])).2

theorem applyStats_balance (bets : List Bet) (rid : Nat) (u : User) :
    (applyStats bets rid u).balance = u.balance := by
  unfold applyStats
  cases findBet bets u.id rid <;> rfl

/-- C3 counterexample: settling the round with pots (5, 0, 5) and result
PUMP (nobody bet the winning side) records house_profit = 1/4 on the round
(`total_pot * HOUSE_EDGE`), not the entire total_pot 5, contradicting "the
recorded house_profit equals the entire total_pot of the round"; payouts,
winner count and balances behave as claimed. -/
theorem zero_winning_pot_house_profit_not_total :
    (settle_round defaultConfig noWinnerState 1 Side.PUMP 50).2.rounds.map
        Round.houseProfit = [1/4] ∧
      (1/4 : Rat) ≠ 5 ∧
      (settle_round defaultConfig noWinnerState 1 Side.PUMP 50).1 = 0 ∧
      (settle_round defaultConfig noWinnerState 1 Side.PUMP 50).2.users.map
        User.balance = [7] := by
  refine ⟨?_, by norm_num, ?_, ?_⟩ <;>
    (simp [settle_round, distribute_winnings, complete_round, findRound,
      payoutMultiplier, winnersPool, markWinningBet, applyStats, findBet,
      findWinBet, countRoundSideBets, noWinnerState, mkUser, mkRound, mkBet,
      defaultConfig]
     try norm_num)

/-- C3 amended: when the winning-side pot is zero, the payout step is a
no-op returning zero winners (no bet update, no balance change), and the
completed round records house_profit = total_pot * house_edge — the house
effectively retains the whole pot because nothing is paid out, but the
recorded house_profit field is the edge cut, not the entire pot. -/
theorem zero_winning_pot_settlement (cfg : Config) (s : DBState) (rid : Nat)
    (result : Side) (now : Rat) (r : Round)
    (h1 : findRound s.rounds rid = some r)
    (h2 : (if result = Side.PUMP then r.pumpPot else r.dumpPot) = 0) :
    distribute_winnings cfg s rid result = (0, s) ∧
      (settle_round cfg s rid result now).1 = 0 ∧
      (settle_round cfg s rid result now).2.bets = s.bets ∧
      (settle_round cfg s rid result now).2.users.map User.balance =
        s.users.map User.balance ∧
      (settle_round cfg s rid result now).2.rounds = s.rounds.map
        (fun x => if x.id = rid then
          { x with status := RoundStatus.completed, result := some result,
                   houseProfit := r.totalPot * cfg.houseEdge, endedAt := some now }
          else x) := by
  have hd : distribute_winnings cfg s rid result = (0, s) := by
    simp only [distribute_winnings, h1]
    rw [if_pos h2]
  refine ⟨hd, ?_, ?_, ?_, ?_⟩
  · simp only [settle_round, hd]
  · simp only [settle_round, hd, complete_round]
  · simp only [settle_round, hd, complete_round, List.map_map]
    exact List.map_congr_left (fun u _ => applyStats_balance s.bets rid u)
  · simp only [settle_round, hd, complete_round, h1]

/-- C3 witness: the amended statement at the (5, 0, 5) round with result
PUMP. -/
theorem zero_winning_pot_settlement_witness :
    distribute_winnings defaultConfig noWinnerState 1 Side.PUMP =
      (0, noWinnerState) :=
  (zero_winning_pot_settlement defaultConfig noWinnerState 1 Side.PUMP 50
    (mkRound 1 RoundStatus.revealing 10 5 0 5 1)
    (by simp [noWinnerState, findRound, mkRound])
    (by simp [mkRound])).1

/-- C2 counterexample: settling the one-bettor round (amount 2, balance 10)
completes it with balance 119/10; invoking settle a second time on the
already-completed round credits the winner again (balance 69/5) and bumps
games_played from 1 to 2 — the second call is not a no-op, contradicting
"invoking settle a second time has no additional effect". -/
theorem settle_twice_not_noop :
    (settle_round defaultConfig (oneBettorState 10 2) 1 Side.PUMP 50).2.rounds.map
        Round.status = [RoundStatus.completed] ∧
      (settle_round defaultConfig (oneBettorState 10 2) 1 Side.PUMP 50).2.users.map
        User.balance = [119/10] ∧
      (settle_round defaultConfig
          (settle_round defaultConfig (oneBettorState 10 2) 1 Side.PUMP 50).2
          1 Side.PUMP 60).2.users.map User.balance = [69/5] ∧
      (settle_round defaultConfig
          (settle_round defaultConfig (oneBettorState 10 2) 1 Side.PUMP 50).2
          1 Side.PUMP 60).2 ≠
        (settle_round defaultConfig (oneBettorState 10 2) 1 Side.PUMP 50).2 := by
  have h1 : (settle_round defaultConfig (oneBettorState 10 2) 1 Side.PUMP 50).2.users.map
      User.balance = [119/10] := by
    simp [settle_round, distribute_winnings, complete_round, findRound,
      payoutMultiplier, winnersPool, markWinningBet, applyStats, findBet,
      findWinBet, countRoundSideBets, oneBettorState, mkUser, mkRound, mkBet,
      defaultConfig]
    norm_num
  have h2 : (settle_round defaultConfig
      (settle_round defaultConfig (oneBettorState 10 2) 1 Side.PUMP 50).2
      1 Side.PUMP 60).2.users.map User.balance = [69/5] := by
    simp [settle_round, distribute_winnings, complete_round, findRound,
      payoutMultiplier, winnersPool, markWinningBet, applyStats, findBet,
      findWinBet, countRoundSideBets, oneBettorState, mkUser, mkRound, mkBet,
      defaultConfig]
    norm_num
  refine ⟨?_, h1, h2, ?_⟩
  · simp [settle_round, distribute_winnings, complete_round, findRound,
      payoutMultiplier, winnersPool, markWinningBet, applyStats, findBet,
      findWinBet, countRoundSideBets, oneBettorState, mkUser, mkRound, mkBet,
      defaultConfig]
  · intro he
    rw [he, h1] at h2
    have : (119 : Rat)/10 = 69/5 := by
      simpa using h2
    norm_num at this

/-- C2 amended: settlement is NOT idempotent.  For any one-bettor round with
stake `a ≠ 0` and balance `b0`, the first settle completes the round and
credits `a * (1 - house_edge)`; a second settle on the already-completed
round (neither `distribute_winnings` nor `complete_round` guards on round
status) credits the same payout again and re-increments games_played.  The
only reason settlement normally runs once is that `run_round` calls it once. -/
theorem settle_second_call_recredits (b0 a t1 t2 : Rat) (ha : a ≠ 0) :
    (settle_round defaultConfig (oneBettorState b0 a) 1 Side.PUMP t1).2.rounds.map
        Round.status = [RoundStatus.completed] ∧
      (settle_round defaultConfig (oneBettorState b0 a) 1 Side.PUMP t1).2.users.map
        User.balance = [b0 + a * (1 - defaultConfig.houseEdge)] ∧
      (settle_round defaultConfig (oneBettorState b0 a) 1 Side.PUMP t1).2.users.map
        User.gamesPlayed = [1] ∧
      (settle_round defaultConfig
          (settle_round defaultConfig (oneBettorState b0 a) 1 Side.PUMP t1).2
          1 Side.PUMP t2).2.users.map User.balance =
        [b0 + 2 * (a * (1 - defaultConfig.houseEdge))] ∧
      (settle_round defaultConfig
          (settle_round defaultConfig (oneBettorState b0 a) 1 Side.PUMP t1).2
          1 Side.PUMP t2).2.users.map User.gamesPlayed = [2] := by
  refine ⟨?_, ?_, ?_, ?_, ?_⟩ <;>
    (simp [settle_round, distribute_winnings, complete_round, findRound,
      payoutMultiplier, winnersPool, markWinningBet, applyStats, findBet,
      findWinBet, countRoundSideBets, oneBettorState, mkUser, mkRound, mkBet,
      defaultConfig, ha]
     try (field_simp
          ring))

/-- C2 witness: the amended statement at balance 10, stake 2. -/
theorem settle_second_call_recredits_witness :
    (settle_round defaultConfig
        (settle_round defaultConfig (oneBettorState 10 2) 1 Side.PUMP 41).2
        1 Side.PUMP 42).2.users.map User.balance =
      [10 + 2 * (2 * (1 - defaultConfig.houseEdge))] :=
  (settle_second_call_recredits 10 2 41 42 (by norm_num)).2.2.2.1

/-- C4 counterexample: in a round whose status is still `betting` but whose
betting deadline (10) already lies in the past at call time 20, a valid bet
is ACCEPTED — `can_place_bet` never compares the clock with
`betting_ends_at`, contradicting "rejected ... whenever the round's betting
deadline timestamp has already passed". -/
theorem deadline_passed_bet_accepted :
    (∀ r ∈ expiredOpenGM.db.rounds,
        r.status = RoundStatus.betting ∧ r.bettingEndsAt < 20) ∧
      (can_place_bet defaultConfig expiredOpenGM 101 1 20).1 = none := by
  constructor
  · intro r hr
    simp only [expiredOpenGM, List.mem_singleton] at hr
    subst hr
    exact ⟨rfl, by norm_num [mkRound]⟩
  · simp [can_place_bet, expiredOpenGM, get_current_round, latestActive,
      isActive, get_or_create_user, findUser, get_user_round_bet, findBet,
      mkUser, mkRound, defaultConfig]
    norm_num

/-- C4 amended: `can_place_bet` rejects whenever the amount is below the
configured minimum or above the configured maximum, and whenever there is no
current round or the current round's status is not `betting` — regardless of
pot state (no check reads the pots) — but the betting deadline timestamp is
never itself consulted: expiry takes effect only once the clock task flips
the status away from `betting`. -/
theorem can_place_bet_rejection_conditions (cfg : Config) (gm : GMState)
    (tid : Nat) (amount now : Rat) :
    (gm.currentRound = none →
      (can_place_bet cfg gm tid amount now).1 = some BetRejection.NoActiveRound) ∧
    (get_current_round gm.db = none →
      (can_place_bet cfg gm tid amount now).1 ≠ none) ∧
    (∀ cr, get_current_round gm.db = some cr → cr.status ≠ RoundStatus.betting →
      (can_place_bet cfg gm tid amount now).1 ≠ none) ∧
    (amount < cfg.minBet → (can_place_bet cfg gm tid amount now).1 ≠ none) ∧
    (amount > cfg.maxBet → (can_place_bet cfg gm tid amount now).1 ≠ none) := by
  refine ⟨?_, ?_, ?_, ?_, ?_⟩
  · intro h
    simp [can_place_bet, h]
  · intro h
    cases hc : gm.currentRound with
    | none => simp [can_place_bet, hc]
    | some rid => simp [can_place_bet, hc, h]
  · intro cr hcr hst
    cases hc : gm.currentRound with
    | none => simp [can_place_bet, hc]
    | some rid =>
        simp only [can_place_bet, hc, hcr]
        rw [if_pos hst]
        simp
  · intro h
    cases hc : gm.currentRound with
    | none => simp [can_place_bet, hc]
    | some rid =>
        cases hg : get_current_round gm.db with
        | none => simp [can_place_bet, hc, hg]
        | some cr =>
            simp only [can_place_bet, hc, hg]
            by_cases hst : cr.status ≠ RoundStatus.betting
            · rw [if_pos hst]; simp
            · rw [if_neg hst, if_pos h]; simp
  · intro h
    cases hc : gm.currentRound with
    | none => simp [can_place_bet, hc]
    | some rid =>
        cases hg : get_current_round gm.db with
        | none => simp [can_place_bet, hc, hg]
        | some cr =>
            simp only [can_place_bet, hc, hg]
            by_cases hst : cr.status ≠ RoundStatus.betting
            · rw [if_pos hst]; simp
            · rw [if_neg hst]
              by_cases hmin : amount < cfg.minBet
              · rw [if_pos hmin]; simp
              · rw [if_neg hmin, if_pos h]; simp

/-- C4 witness: the amended statement at a concrete below-minimum call and a
concrete closed-round call. -/
theorem can_place_bet_rejection_conditions_witness :
    (can_place_bet defaultConfig expiredOpenGM 101 0.001 20).1 ≠ none ∧
      (can_place_bet defaultConfig
        { db := { users := [], rounds := [], bets := [] },
          currentRound := none, roundCounter := 1 } 5 1 0).1 =
        some BetRejection.NoActiveRound := by
  constructor
  · exact (can_place_bet_rejection_conditions defaultConfig expiredOpenGM 101
      0.001 20).2.2.2.1 (by norm_num [defaultConfig])
  · exact (can_place_bet_rejection_conditions defaultConfig
      { db := { users := [], rounds := [], bets := [] },
        currentRound := none, roundCounter := 1 } 5 1 0).1 rfl

theorem applyNameUpdate_id (un fn : Option String) (tid : Nat) (u : User) :
    (applyNameUpdate un fn tid u).id = u.id := by
  unfold applyNameUpdate
  split <;> rfl

theorem applyNameUpdate_tid (un fn : Option String) (tid : Nat) (u : User) :
    (applyNameUpdate un fn tid u).telegramId = u.telegramId := by
  unfold applyNameUpdate
  split <;> rfl

theorem findUser_eq_some (l : List User) (tid : Nat) (u : User)
    (h : findUser l tid = some u) : u.telegramId = tid ∧ u ∈ l := by
  induction l with
  | nil => simp [findUser] at h
  | cons x xs ih =>
      by_cases hx : x.telegramId = tid
      · simp [findUser, hx] at h
        subst h
        exact ⟨hx, List.mem_cons_self x xs⟩
      · simp [findUser, hx] at h
        obtain ⟨ht, hm⟩ := ih h
        exact ⟨ht, List.mem_cons_of_mem x hm⟩

theorem findUser_map_nameUpdate (l : List User) (tid : Nat)
    (un fn : Option String) :
    findUser (l.map (applyNameUpdate un fn tid)) tid =
      (findUser l tid).map (applyNameUpdate un fn tid) := by
  induction l with
  | nil => simp [findUser]
  | cons x xs ih =>
      by_cases hx : x.telegramId = tid
      · simp [findUser, applyNameUpdate_tid, hx]
      · simp [findUser, applyNameUpdate_tid, hx, ih]

theorem findUser_append (l1 l2 : List User) (tid : Nat) :
    findUser (l1 ++ l2) tid =
      match findUser l1 tid with
      | some u => some u
      | none => findUser l2 tid := by
  induction l1 with
  | nil => simp [findUser]
  | cons x xs ih =>
      by_cases hx : x.telegramId = tid
      · simp [findUser, hx]
      · simp [findUser, hx, ih]

theorem get_or_create_frame (s : DBState) (tid : Nat) (un fn : Option String) :
    (get_or_create_user s tid un fn).2.bets = s.bets ∧
      (get_or_create_user s tid un fn).2.rounds = s.rounds := by
  unfold get_or_create_user
  cases h : findUser s.users tid with
  | some u =>
      simp only
      split <;> exact ⟨rfl, rfl⟩
  | none => exact ⟨rfl, rfl⟩

theorem get_or_create_users_economy (s : DBState) (tid : Nat)
    (un fn : Option String) :
    ∀ v ∈ s.users, ∃ v' ∈ (get_or_create_user s tid un fn).2.users,
      v'.id = v.id ∧ userEconomy v' = userEconomy v := by
  intro v hv
  unfold get_or_create_user
  cases h : findUser s.users tid with
  | some u =>
      simp only
      split
      · exact ⟨applyNameUpdate un fn tid v,
          List.mem_map_of_mem _ hv,
          applyNameUpdate_id un fn tid v,
          userEconomy_applyNameUpdate un fn tid v⟩
      · exact ⟨v, hv, rfl, rfl⟩
  | none => exact ⟨v, List.mem_append_left _ hv, rfl, rfl⟩

theorem get_or_create_found (s : DBState) (tid : Nat) (un fn : Option String)
    (u : User) (h : findUser s.users tid = some u) :
    (get_or_create_user s tid un fn).1 = u := by
  simp [get_or_create_user, h]

theorem get_or_create_repeat (s : DBState) (tid : Nat) (un fn : Option String) :
    (get_or_create_user (get_or_create_user s tid un fn).2 tid un fn).1.id =
        (get_or_create_user s tid un fn).1.id ∧
      (get_or_create_user (get_or_create_user s tid un fn).2 tid un fn).1.balance =
        (get_or_create_user s tid un fn).1.balance := by
  cases h : findUser s.users tid with
  | some u =>
      have h1 : (get_or_create_user s tid un fn).1 = u := by
        simp [get_or_create_user, h]
      by_cases hch : un ≠ u.username ∨ fn ≠ u.firstName
      · have h2 : (get_or_create_user s tid un fn).2.users =
            s.users.map (applyNameUpdate un fn tid) := by
          simp [get_or_create_user, h, hch]
        have h3 : findUser (get_or_create_user s tid un fn).2.users tid =
            some (applyNameUpdate un fn tid u) := by
          rw [h2, findUser_map_nameUpdate, h]
          rfl
        have h4 : (get_or_create_user (get_or_create_user s tid un fn).2 tid un fn).1 =
            applyNameUpdate un fn tid u :=
          get_or_create_found _ tid un fn _ h3
        rw [h4, h1]
        constructor
        · exact applyNameUpdate_id un fn tid u
        · unfold applyNameUpdate
          split <;> rfl
      · have h2 : (get_or_create_user s tid un fn).2 = s := by
          simp [get_or_create_user, h, hch]
        rw [h2]
        constructor <;> rfl
  | none =>
      have htid : (get_or_create_user s tid un fn).1.telegramId = tid := by
        simp [get_or_create_user, h]
      have h2 : (get_or_create_user s tid un fn).2.users =
          s.users ++ [(get_or_create_user s tid un fn).1] := by
        simp [get_or_create_user, h]
      have h3 : findUser (get_or_create_user s tid un fn).2.users tid =
          some (get_or_create_user s tid un fn).1 := by
        rw [h2, findUser_append, h]
        simp [findUser, htid]
      have h4 : (get_or_create_user (get_or_create_user s tid un fn).2 tid un fn).1 =
          (get_or_create_user s tid un fn).1 :=
        get_or_create_found _ tid un fn _ h3
      rw [h4]
      exact ⟨rfl, rfl⟩

theorem betSum_append_single (l : List Bet) (b : Bet) (rid : Nat) :
    betSum (l ++ [b]) rid =
      betSum l rid + (if b.roundId = rid then b.amount else 0) := by
  induction l with
  | nil => simp [betSum]
  | cons x xs ih => simp [betSum, ih]; ring

theorem sideSum_append_single (l : List Bet) (b : Bet) (rid : Nat) (side : Side) :
    sideSum (l ++ [b]) rid side =
      sideSum l rid side +
        (if b.roundId = rid ∧ b.betType = side then b.amount else 0) := by
  induction l with
  | nil => simp [sideSum]
  | cons x xs ih => simp [sideSum, ih]; ring

theorem pairCount_append_single (l : List Bet) (b : Bet) (uid rid : Nat) :
    pairCount (l ++ [b]) uid rid =
      pairCount l uid rid + (if b.userId = uid ∧ b.roundId = rid then 1 else 0) := by
  induction l with
  | nil => simp [pairCount]
  | cons x xs ih => simp [pairCount, ih]; omega

theorem betSum_eq_sideSum (l : List Bet) (rid : Nat) :
    betSum l rid = sideSum l rid Side.PUMP + sideSum l rid Side.DUMP := by
  induction l with
  | nil => simp [betSum, sideSum]
  | cons b xs ih =>
      by_cases hr : b.roundId = rid
      · cases hb : b.betType <;> simp [betSum, sideSum, hr, hb, ih] <;> ring
      · simp [betSum, sideSum, hr, ih]

theorem pairCount_zero_of_findBet_none (l : List Bet) (uid rid : Nat)
    (h : findBet l uid rid = none) : pairCount l uid rid = 0 := by
  induction l with
  | nil => simp [pairCount]
  | cons b xs ih =>
      by_cases hb : b.userId = uid ∧ b.roundId = rid
      · simp [findBet, hb] at h
      · simp [findBet, hb] at h
        simp [pairCount, hb, ih h]

theorem pairCount_pos_of_mem (l : List Bet) (b : Bet) (h : b ∈ l) :
    1 ≤ pairCount l b.userId b.roundId := by
  induction l with
  | nil => simp at h
  | cons x xs ih =>
      rcases List.mem_cons.mp h with h1 | h1
      · subst h1
        simp [pairCount]
      · have := ih h1
        unfold pairCount
        omega

theorem potUpdate_id (side : Side) (amount : Rat) (r : Round) :
    (potUpdate side amount r).id = r.id := by
  cases side <;> rfl

theorem db_place_bet_inv (s : DBState) (uid rid : Nat) (side : Side)
    (amount : Rat) (hInv : DBInv s) (hnone : findBet s.bets uid rid = none) :
    DBInv (db_place_bet s uid rid side amount) := by
  obtain ⟨hnodup, hpots, hpair⟩ := hInv
  have hbets : (db_place_bet s uid rid side amount).bets =
      s.bets ++ [mkBet uid rid side amount] := rfl
  have hrounds : (db_place_bet s uid rid side amount).rounds =
      s.rounds.map (fun r => if r.id = rid then potUpdate side amount r else r) := rfl
  refine ⟨?_, ?_, ?_⟩
  · rw [hrounds, List.map_map]
    have hcomp : (Round.id ∘ fun r => if r.id = rid then potUpdate side amount r else r) =
        Round.id := by
      funext r
      by_cases hr : r.id = rid <;> simp [hr, potUpdate_id]
    rw [hcomp]
    exact hnodup
  · rw [hrounds, hbets]
    intro r' hr'
    obtain ⟨r, hrm, hreq⟩ := List.mem_map.mp hr'
    obtain ⟨ht, hp, hd⟩ := hpots r hrm
    by_cases hid : r.id = rid
    · rw [if_pos hid] at hreq
      subst hreq
      cases side with
      | PUMP =>
          simp only [potUpdate, potUpdate_id, betSum_append_single,
            sideSum_append_single, mkBet, hid, ht, hp, hd]
          simp
      | DUMP =>
          simp only [potUpdate, potUpdate_id, betSum_append_single,
            sideSum_append_single, mkBet, hid, ht, hp, hd]
          simp
    · rw [if_neg hid] at hreq
      subst hreq
      have hne : ¬(rid = r.id) := fun hc => hid hc.symm
      simp only [betSum_append_single, sideSum_append_single, mkBet, hne,
        if_false, false_and, add_zero]
      exact ⟨ht, hp, hd⟩
  · rw [hbets]
    intro b hb
    rcases List.mem_append.mp hb with h1 | h1
    · rw [pairCount_append_single]
      have hcnt := hpair b h1
      by_cases hsame : uid = b.userId ∧ rid = b.roundId
      · exfalso
        obtain ⟨h3, h4⟩ := hsame
        have hge : 1 ≤ pairCount s.bets b.userId b.roundId :=
          pairCount_pos_of_mem s.bets b h1
        rw [← h3, ← h4] at hge
        rw [pairCount_zero_of_findBet_none s.bets uid rid hnone] at hge
        omega
      · simp only [mkBet]
        rw [if_neg hsame]
        omega
    · simp only [List.mem_singleton] at h1
      subst h1
      rw [pairCount_append_single]
      simp only [mkBet, and_self, if_true]
      rw [pairCount_zero_of_findBet_none s.bets uid rid hnone]

theorem DBInv_transport (s1 s2 : DBState) (hb : s1.bets = s2.bets)
    (hr : s1.rounds = s2.rounds) (h : DBInv s2) : DBInv s1 := by
  unfold DBInv tablesInv at h ⊢
  rw [hb, hr]
  exact h

theorem can_place_bet_frame (cfg : Config) (gm : GMState) (tid : Nat)
    (amount now : Rat) :
    (can_place_bet cfg gm tid amount now).2.db.bets = gm.db.bets ∧
      (can_place_bet cfg gm tid amount now).2.db.rounds = gm.db.rounds ∧
      (can_place_bet cfg gm tid amount now).2.currentRound = gm.currentRound ∧
      ∀ v ∈ gm.db.users, ∃ v' ∈ (can_place_bet cfg gm tid amount now).2.db.users,
        v'.id = v.id ∧ userEconomy v' = userEconomy v := by
  cases hc : gm.currentRound with
  | none =>
      refine ⟨?_, ?_, ?_, fun v hv => ?_⟩ <;> simp only [can_place_bet, hc] <;>
        first
          | rfl
          | exact ⟨v, hv, rfl, rfl⟩
  | some rid =>
      cases hg : get_current_round gm.db with
      | none =>
          refine ⟨?_, ?_, ?_, fun v hv => ?_⟩ <;>
            simp only [can_place_bet, hc, hg] <;>
            first
              | rfl
              | exact ⟨v, hv, rfl, rfl⟩
      | some cr =>
          have hframe := get_or_create_frame gm.db tid none none
          have hecon := get_or_create_users_economy gm.db tid none none
          refine ⟨?_, ?_, ?_, ?_⟩
          · simp only [can_place_bet, hc, hg]
            split_ifs <;> first | rfl | exact hframe.1
          · simp only [can_place_bet, hc, hg]
            split_ifs <;> first | rfl | exact hframe.2
          · simp only [can_place_bet, hc, hg]
            split_ifs <;> first | rfl | exact hc
          · intro v hv
            simp only [can_place_bet, hc, hg]
            split_ifs <;> first | exact ⟨v, hv, rfl, rfl⟩ | exact hecon v hv

theorem can_place_bet_none_inv (cfg : Config) (gm : GMState) (tid : Nat)
    (amount now : Rat) (gm1 : GMState)
    (h : can_place_bet cfg gm tid amount now = (none, gm1)) :
    ∃ rid, gm.currentRound = some rid ∧
      gm1 = { gm with db := (get_or_create_user gm.db tid none none).2 } ∧
      findBet (get_or_create_user gm.db tid none none).2.bets
        (get_or_create_user gm.db tid none none).1.id rid = none := by
  cases hc : gm.currentRound with
  | none =>
      simp only [can_place_bet, hc] at h
      simp at h
  | some rid =>
      cases hg : get_current_round gm.db with
      | none =>
          simp only [can_place_bet, hc, hg] at h
          simp at h
      | some cr =>
          simp only [can_place_bet, hc, hg] at h
          split_ifs at h with h1 h2 h3 h4 h5
          · simp at h
          · simp at h
          · simp at h
          · simp at h
          · simp at h
          · refine ⟨rid, rfl, ?_, ?_⟩
            · have h6 := congrArg Prod.snd h
              exact h6.symm
            · have h7 : ¬(get_user_round_bet
                  (get_or_create_user gm.db tid none none).2
                  (get_or_create_user gm.db tid none none).1.id rid).isSome = true := h5
              rw [Option.not_isSome_iff_eq_none] at h7
              exact h7

theorem gm_place_bet_inv (cfg : Config) (gm : GMState) (tid : Nat) (side : Side)
    (amount now : Rat) (h : DBInv gm.db) :
    DBInv (gm_place_bet cfg gm tid side amount now).2.db := by
  rcases hcb : can_place_bet cfg gm tid amount now with ⟨o, gm1⟩
  have hf := can_place_bet_frame cfg gm tid amount now
  rw [hcb] at hf
  obtain ⟨hfb, hfr, hfc, -⟩ := hf
  cases o with
  | some rej =>
      have hres : (gm_place_bet cfg gm tid side amount now).2 = gm1 := by
        simp only [gm_place_bet, hcb]
      rw [hres]
      exact DBInv_transport gm1.db gm.db hfb hfr h
  | none =>
      obtain ⟨rid, hc, hgm1, hbet⟩ :=
        can_place_bet_none_inv cfg gm tid amount now gm1 hcb
      have hcr1 : gm1.currentRound = some rid := by
        rw [hgm1]
        exact hc
      have hres : (gm_place_bet cfg gm tid side amount now).2 =
          { gm1 with
              db := db_place_bet (get_or_create_user gm1.db tid none none).2
                (get_or_create_user gm1.db tid none none).1.id rid side amount } := by
        simp only [gm_place_bet, hcb, hcr1]
      rw [hres]
      have hdb1 : gm1.db = (get_or_create_user gm.db tid none none).2 := by
        rw [hgm1]
      have hbets2 : (get_or_create_user gm1.db tid none none).2.bets = gm.db.bets := by
        rw [(get_or_create_frame gm1.db tid none none).1, hdb1,
          (get_or_create_frame gm.db tid none none).1]
      have hrounds2 : (get_or_create_user gm1.db tid none none).2.rounds = gm.db.rounds := by
        rw [(get_or_create_frame gm1.db tid none none).2, hdb1,
          (get_or_create_frame gm.db tid none none).2]
      have hid2 : (get_or_create_user gm1.db tid none none).1.id =
          (get_or_create_user gm.db tid none none).1.id := by
        rw [hdb1]
        exact (get_or_create_repeat gm.db tid none none).1
      have hinv2 : DBInv (get_or_create_user gm1.db tid none none).2 :=
        DBInv_transport _ gm.db hbets2 hrounds2 h
      have hbet2 : findBet (get_or_create_user gm1.db tid none none).2.bets
          (get_or_create_user gm1.db tid none none).1.id rid = none := by
        rw [hbets2, hid2]
        rw [(get_or_create_frame gm.db tid none none).1] at hbet
        exact hbet
      exact db_place_bet_inv _ _ _ _ _ hinv2 hbet2

theorem applyBetRequests_inv (cfg : Config) (reqs : List (Nat × Side × Rat))
    (now : Rat) :
    ∀ gm : GMState, DBInv gm.db → DBInv (applyBetRequests cfg gm reqs now).db := by
  induction reqs with
  | nil => intro gm h; simpa [applyBetRequests] using h
  | cons req rest ih =>
      intro gm h
      have hstep := gm_place_bet_inv cfg gm req.1 req.2.1 req.2.2 now h
      have := ih (gm_place_bet cfg gm req.1 req.2.1 req.2.2 now).2 hstep
      simpa [applyBetRequests, List.foldl_cons] using this

/-- C7: starting from a database satisfying the financial invariants, any
sequence of `place_bet` calls preserves them: for every round,
total_pot = pump_pot + dump_pot and total_pot equals the sum of the amounts
of that round's committed bets, and no (user, round) pair ever carries more
than one committed bet. -/
theorem pot_invariants_preserved (cfg : Config) (gm : GMState)
    (reqs : List (Nat × Side × Rat)) (now : Rat) (h : DBInv gm.db) :
    DBInv (applyBetRequests cfg gm reqs now).db ∧
      (∀ r ∈ (applyBetRequests cfg gm reqs now).db.rounds,
        r.totalPot = r.pumpPot + r.dumpPot ∧
          r.totalPot = betSum (applyBetRequests cfg gm reqs now).db.bets r.id) ∧
      ∀ b ∈ (applyBetRequests cfg gm reqs now).db.bets,
        pairCount (applyBetRequests cfg gm reqs now).db.bets b.userId b.roundId ≤ 1 := by
  have hinv := applyBetRequests_inv cfg reqs now gm h
  obtain ⟨hnodup, hpots, hpair⟩ := hinv
  refine ⟨applyBetRequests_inv cfg reqs now gm h, ?_, hpair⟩
  intro r hr
  obtain ⟨ht, hp, hd⟩ := hpots r hr
  constructor
  · rw [ht, hp, hd, betSum_eq_sideSum]
  · exact ht

/-- C7 witness: the invariants hold after a successful bet followed by a
rejected duplicate from the same user against the open round. -/
theorem pot_invariants_preserved_witness :
    DBInv (applyBetRequests defaultConfig expiredOpenGM
      [(101, Side.PUMP, 1), (101, Side.DUMP, 1)] 20).db :=
  (pot_invariants_preserved defaultConfig expiredOpenGM
    [(101, Side.PUMP, 1), (101, Side.DUMP, 1)] 20
    (by simp [DBInv, tablesInv, expiredOpenGM, mkRound, mkUser, betSum,
      sideSum, pairCount])).1

theorem userEconomy_fields (a b : User) (h : userEconomy a = userEconomy b) :
    a.balance = b.balance ∧ a.totalWagered = b.totalWagered := by
  unfold userEconomy at h
  simp only [Prod.mk.injEq] at h
  exact ⟨h.1, h.2.1⟩

/-- C1 counterexample: with the betting deadline (100) already passed at call
time 200, `place_bet` still ACCEPTS the bet and applies its mutations (the
bet row is inserted) — the "not expired" precondition of the claim is never
verified, so the claim's "all preconditions ... are verified" is false on
this input. -/
theorem expired_deadline_bet_committed :
    (∀ r ∈ expiredOpenGM2.db.rounds,
        r.status = RoundStatus.betting ∧ r.bettingEndsAt < 200) ∧
      (gm_place_bet defaultConfig expiredOpenGM2 777 Side.DUMP 2 200).1 =
        Except.ok () ∧
      (gm_place_bet defaultConfig expiredOpenGM2 777 Side.DUMP 2 200).2.db.bets =
        [mkBet 4 3 Side.DUMP 2] := by
  have hg : get_or_create_user expiredOpenGM2.db 777 none none =
      (mkUser 4 777 8, expiredOpenGM2.db) := by
    simp [get_or_create_user, findUser, expiredOpenGM2, mkUser]
  have hcur : expiredOpenGM2.currentRound = some 3 := rfl
  have h1 : can_place_bet defaultConfig expiredOpenGM2 777 2 200 =
      (none, expiredOpenGM2) := by
    have hgcr : get_current_round expiredOpenGM2.db =
        some (mkRound 3 RoundStatus.betting 100 0 0 0 0) := by
      simp [expiredOpenGM2, get_current_round, latestActive, isActive, mkRound]
    have hbets : expiredOpenGM2.db.bets = ([] : List Bet) := rfl
    simp only [can_place_bet, hcur, hgcr, hg, get_user_round_bet, hbets]
    norm_num [mkRound, mkUser, defaultConfig, findBet]
    rw [← hcur]
  have hres : gm_place_bet defaultConfig expiredOpenGM2 777 Side.DUMP 2 200 =
      (Except.ok (), { expiredOpenGM2 with
        db := db_place_bet expiredOpenGM2.db 4 3 Side.DUMP 2 }) := by
    simp only [gm_place_bet, h1, hg]
    rfl
  refine ⟨?_, ?_, ?_⟩
  · intro r hr
    simp only [expiredOpenGM2, List.mem_singleton] at hr
    subst hr
    exact ⟨rfl, by norm_num [mkRound]⟩
  · rw [hres]
  · rw [hres]
    simp [db_place_bet, expiredOpenGM2, updateUserById, updateRoundById,
      potUpdate, mkBet, mkUser, mkRound]

/-- C1 amended: `place_bet` verifies its preconditions (an active round with
status `betting`, amount within min/max, sufficient balance, no existing bet
— the deadline timestamp is NOT among them) before the mutation
transaction.  On any rejection it returns a typed reason and performs no
balance, bet, or pot mutation (at most a user row is fetched-or-created);
when all checks pass, the bet insert, the balance debit and the pot
increment are all applied. -/
theorem place_bet_all_or_nothing (cfg : Config) (gm : GMState) (tid : Nat)
    (side : Side) (amount now : Rat) :
    (∀ rej gm2, gm_place_bet cfg gm tid side amount now = (Except.error rej, gm2) →
      gm2.db.bets = gm.db.bets ∧ gm2.db.rounds = gm.db.rounds ∧
        ∀ v ∈ gm.db.users, ∃ v' ∈ gm2.db.users,
          v'.id = v.id ∧ userEconomy v' = userEconomy v) ∧
    (∀ gm2, gm_place_bet cfg gm tid side amount now = (Except.ok (), gm2) →
      ∃ rid uid, gm.currentRound = some rid ∧
        gm2.db.bets = gm.db.bets ++ [mkBet uid rid side amount] ∧
        (∀ u, findUser gm.db.users tid = some u → uid = u.id ∧
          ∃ u' ∈ gm2.db.users, u'.id = u.id ∧ u'.balance = u.balance - amount ∧
            u'.totalWagered = u.totalWagered + amount) ∧
        (∀ r ∈ gm.db.rounds,
          (r.id = rid → potUpdate side amount r ∈ gm2.db.rounds) ∧
          (r.id ≠ rid → r ∈ gm2.db.rounds))) := by
  rcases hcb : can_place_bet cfg gm tid amount now with ⟨o, gm1⟩
  have hf := can_place_bet_frame cfg gm tid amount now
  rw [hcb] at hf
  obtain ⟨hfb, hfr, hfc, hfu⟩ := hf
  cases o with
  | some rej =>
      have hres : gm_place_bet cfg gm tid side amount now = (Except.error rej, gm1) := by
        simp only [gm_place_bet, hcb]
      constructor
      · intro rej2 gm2 h2
        rw [hres] at h2
        have hg : gm1 = gm2 := congrArg Prod.snd h2
        subst hg
        exact ⟨hfb, hfr, hfu⟩
      · intro gm2 h2
        rw [hres] at h2
        have : (Except.error rej : Except BetRejection Unit) = Except.ok () :=
          congrArg Prod.fst h2
        exact absurd this (by simp)
  | none =>
      obtain ⟨rid, hc, hgm1, hbet⟩ :=
        can_place_bet_none_inv cfg gm tid amount now gm1 hcb
      have hcr1 : gm1.currentRound = some rid := by
        rw [hgm1]
        exact hc
      have hdb1 : gm1.db = (get_or_create_user gm.db tid none none).2 := by
        rw [hgm1]
      have hbets2 : (get_or_create_user gm1.db tid none none).2.bets = gm.db.bets := by
        rw [(get_or_create_frame gm1.db tid none none).1, hdb1,
          (get_or_create_frame gm.db tid none none).1]
      have hrounds2 : (get_or_create_user gm1.db tid none none).2.rounds = gm.db.rounds := by
        rw [(get_or_create_frame gm1.db tid none none).2, hdb1,
          (get_or_create_frame gm.db tid none none).2]
      have hid2 : (get_or_create_user gm1.db tid none none).1.id =
          (get_or_create_user gm.db tid none none).1.id := by
        rw [hdb1]
        exact (get_or_create_repeat gm.db tid none none).1
      have hres : gm_place_bet cfg gm tid side amount now =
          (Except.ok (), { gm1 with
            db := db_place_bet (get_or_create_user gm1.db tid none none).2
              (get_or_create_user gm1.db tid none none).1.id rid side amount }) := by
        simp only [gm_place_bet, hcb, hcr1]
      constructor
      · intro rej2 gm2 h2
        rw [hres] at h2
        have : Except.ok () = (Except.error rej2 : Except BetRejection Unit) :=
          congrArg Prod.fst h2
        exact absurd this (by simp)
      · intro gm2 h2
        rw [hres] at h2
        have hg : ({ gm1 with
            db := db_place_bet (get_or_create_user gm1.db tid none none).2
              (get_or_create_user gm1.db tid none none).1.id rid side amount } : GMState) = gm2 :=
          congrArg Prod.snd h2
        subst hg
        refine ⟨rid, (get_or_create_user gm1.db tid none none).1.id, hc, ?_, ?_, ?_⟩
        · show (get_or_create_user gm1.db tid none none).2.bets ++
            [mkBet (get_or_create_user gm1.db tid none none).1.id rid side amount] =
              gm.db.bets ++
                [mkBet (get_or_create_user gm1.db tid none none).1.id rid side amount]
          rw [hbets2]
        · intro u hu
          have hu1 : (get_or_create_user gm.db tid none none).1 = u :=
            get_or_create_found gm.db tid none none u hu
          have huid : (get_or_create_user gm1.db tid none none).1.id = u.id := by
            rw [hid2, hu1]
          refine ⟨huid.symm ▸ rfl, ?_⟩
          obtain ⟨v1, hv1m, hv1id, hv1e⟩ :=
            get_or_create_users_economy gm.db tid none none u
              (findUser_eq_some gm.db.users tid u hu).2
          have hv1m' : v1 ∈ gm1.db.users := by
            rw [hdb1]
            exact hv1m
          obtain ⟨v2, hv2m, hv2id, hv2e⟩ :=
            get_or_create_users_economy gm1.db tid none none v1 hv1m'
          have hv2id' : v2.id = u.id := by rw [hv2id, hv1id]
          have hv2bal := userEconomy_fields v2 u (hv2e.trans hv1e)
          refine ⟨{ v2 with
                      balance := v2.balance - amount,
                      totalWagered := v2.totalWagered + amount }, ?_, ?_, ?_, ?_⟩
          · show _ ∈ ((get_or_create_user gm1.db tid none none).2.users.map
              (fun w => if w.id = (get_or_create_user gm1.db tid none none).1.id
                then { w with
                         balance := w.balance - amount,
                         totalWagered := w.totalWagered + amount } else w))
            have hcond : v2.id = (get_or_create_user gm1.db tid none none).1.id := by
              rw [hv2id', huid]
            have himg : (fun w => if w.id = (get_or_create_user gm1.db tid none none).1.id
                then { w with
                         balance := w.balance - amount,
                         totalWagered := w.totalWagered + amount } else w) v2 =
                { v2 with
                    balance := v2.balance - amount,
                    totalWagered := v2.totalWagered + amount } := if_pos hcond
            exact himg ▸ List.mem_map_of_mem _ hv2m
          · exact hv2id'
          · rw [hv2bal.1]
          · rw [hv2bal.2]
        · intro r hr
          have hrm : r ∈ (get_or_create_user gm1.db tid none none).2.rounds := by
            rw [hrounds2]
            exact hr
          constructor
          · intro hid
            show potUpdate side amount r ∈
              ((get_or_create_user gm1.db tid none none).2.rounds.map
                (fun x => if x.id = rid then potUpdate side amount x else x))
            have himg : (fun x => if x.id = rid then potUpdate side amount x else x) r =
                potUpdate side amount r := if_pos hid
            exact himg ▸ List.mem_map_of_mem _ hrm
          · intro hid
            show r ∈ ((get_or_create_user gm1.db tid none none).2.rounds.map
              (fun x => if x.id = rid then potUpdate side amount x else x))
            have himg : (fun x => if x.id = rid then potUpdate side amount x else x) r = r :=
              if_neg hid
            exact himg ▸ List.mem_map_of_mem _ hrm

/-- C1 witness: the amended statement applied at a concrete rejected call
(no active round) showing no bet, round, or balance mutation. -/
theorem place_bet_all_or_nothing_witness :
    (gm_place_bet defaultConfig
        { db := oneBettorState 10 2, currentRound := none, roundCounter := 5 }
        101 Side.PUMP 1 0).2.db.bets = (oneBettorState 10 2).bets := by
  have happ := (place_bet_all_or_nothing defaultConfig
    { db := oneBettorState 10 2, currentRound := none, roundCounter := 5 }
    101 Side.PUMP 1 0).1 BetRejection.NoActiveRound
    (gm_place_bet defaultConfig
      { db := oneBettorState 10 2, currentRound := none, roundCounter := 5 }
      101 Side.PUMP 1 0).2
    (by simp [gm_place_bet, can_place_bet])
  exact happ.1
